import Mathlib

/-!
Verification of the TecDoc export core (tecdoc_export.py): envelope
normalization, pagination, reference accumulation, linkage correlation and
deduplication.  Python strings are embedded as lists of characters
(`Str`), dynamic JSON values as the inductive `Json`, and each relevant
Python function is transcribed into an executable Lean definition over
those types.
-/

namespace Tecdoc

/-- Python strings, embedded as character lists so that slicing and
substring operations stay elementary. -/
abbrev Str := List Char

/-- Lift a Lean string literal into the embedding. -/
def lit (s : String) : Str := s.toList

/-- Python `sub in s` (contiguous substring test; the empty string is a
substring of everything, as in Python). -/
def strSub (sub s : Str) : Bool :=
  (List.range (s.length + 1)).any (fun i => sub.isPrefixOf (s.drop i))

/-- Python `s.strip()`: remove leading and trailing whitespace. -/
def strTrim (s : Str) : Str :=
  ((s.dropWhile Char.isWhitespace).reverse.dropWhile Char.isWhitespace).reverse

/-- Python `s.isdigit()`: nonempty and all digits. -/
def isDigitStr (s : Str) : Bool :=
  !s.isEmpty && s.all Char.isDigit

/-- Python `'|'.join(xs)`. -/
def joinBar (xs : List Str) : Str :=
  List.intercalate [Char.ofNat 124] xs

/-- `str(n)` for an integer. -/
def intStr (n : Int) : Str := (toString n).toList

/-- `_format_year_month` (tecdoc_export.py lines 1528-1553), on the
string rendering of the input value.  Falsy inputs (the empty string)
yield the empty string; a 7-character value containing a dash is returned
unchanged; a 6-digit value gets a dash inserted after the 4th digit; a
4-digit value gets "-01" appended; anything else is returned as-is. -/
def format_year_month (s : Str) : Str :=
  if s.isEmpty then []
  else if s.length == 7 && s.contains '-' then s
  else if s.length == 6 && isDigitStr s then s.take 4 ++ '-' :: (s.drop 4).take 2
  else if s.length == 4 && isDigitStr s then s ++ lit "-01"
  else s

/-! ### JSON-like values and the envelope normalizers -/

/-- JSON-like Python values as returned by the upstream service. -/
inductive Json where
  | null
  | bool (b : Bool)
  | num (n : Int)
  | str (s : Str)
  | arr (elems : List Json)
  | obj (fields : List (Str × Json))

/-- Python truthiness over JSON-like values. -/
def pyTruthy : Json → Bool
  | .null => false
  | .bool b => b
  | .num n => n != 0
  | .str s => !s.isEmpty
  | .arr xs => !xs.isEmpty
  | .obj fs => !fs.isEmpty

/-- Key presence in a dict. -/
def objHasKey (fs : List (Str × Json)) (k : Str) : Bool :=
  fs.any (fun p => p.1 == k)

/-- Dict key lookup (first binding wins; bindings model a Python dict,
whose keys are unique). -/
def objLookup (fs : List (Str × Json)) (k : Str) : Option Json :=
  (fs.find? (fun p => p.1 == k)).map (fun p => p.2)

/-- Whether a JSON value is the string `k`. -/
def jsonIsStrVal (e : Json) (k : Str) : Bool :=
  match e with
  | .str s => s == k
  | _ => false

/-- Python `k in x` for a string `k`: key membership for dicts, element
membership for lists, substring test for strings, `TypeError` (modelled
as `.error`) for numbers, booleans and `None`. -/
def pyContains (x : Json) (k : Str) : Except Unit Bool :=
  match x with
  | .obj fs => .ok (objHasKey fs k)
  | .arr es => .ok (es.any (fun e => jsonIsStrVal e k))
  | .str s => .ok (strSub k s)
  | _ => .error ()

/-- Python `x[k]` for a string `k`: dict lookup (`KeyError` when the key
is absent), `TypeError` for every other shape. -/
def pyIndex (x : Json) (k : Str) : Except Unit Json :=
  match x with
  | .obj fs =>
    match objLookup fs k with
    | some v => .ok v
    | none => .error ()
  | _ => .error ()

/-- Python `x.get(k, d)`: only dicts have `.get` (`AttributeError`
otherwise). -/
def pyDictGet (x : Json) (k : Str) (d : Json) : Except Unit Json :=
  match x with
  | .obj fs => .ok ((objLookup fs k).getD d)
  | _ => .error ()

/-- Python `isinstance(x, list)`. -/
def isList : Json → Bool
  | .arr _ => true
  | _ => false

/-- The envelope-payload extraction of `process_attributes_data`
(tecdoc_export.py lines 1310-1329): try the `array` key, then the `data`
key (inside it the `array` key, then `data` itself being a list), and
last the response itself being a list. -/
def attributes_envelope_data (resp : Json) : Except Unit (Option Json) :=
  match pyContains resp (lit "array") with
  | .error _ => .error ()
  | .ok true => (pyIndex resp (lit "array")).map some
  | .ok false =>
    match pyContains resp (lit "data") with
    | .error _ => .error ()
    | .ok true =>
      match pyDictGet resp (lit "data") (Json.obj []) with
      | .error _ => .error ()
      | .ok data =>
        match pyContains data (lit "array") with
        | .error _ => .error ()
        | .ok true => (pyIndex data (lit "array")).map some
        | .ok false => if isList data then .ok (some data) else .ok none
    | .ok false => if isList resp then .ok (some resp) else .ok none

/-- The envelope-payload extraction of `process_vehicle_linkages`
(tecdoc_export.py lines 1566-1578): identical to the attributes variant
except that there is no direct-list branch at all. -/
def linkages_envelope_data (resp : Json) : Except Unit (Option Json) :=
  match pyContains resp (lit "array") with
  | .error _ => .error ()
  | .ok true => (pyIndex resp (lit "array")).map some
  | .ok false =>
    match pyContains resp (lit "data") with
    | .error _ => .error ()
    | .ok true =>
      match pyDictGet resp (lit "data") (Json.obj []) with
      | .error _ => .error ()
      | .ok data =>
        match pyContains data (lit "array") with
        | .error _ => .error ()
        | .ok true => (pyIndex data (lit "array")).map some
        | .ok false => if isList data then .ok (some data) else .ok none
    | .ok false => .ok none

/-- `process_attributes_data`, restricted to its envelope-normalization
outcome (lines 1302-1334): `.ok none` means the function returns without
records ("no data"), `.ok (some payload)` means it proceeds with
`payload`, `.error` models an uncaught Python exception. -/
def process_attributes_envelope (resp : Json) : Except Unit (Option Json) :=
  if !pyTruthy resp then .ok none
  else
    match attributes_envelope_data resp with
    | .error _ => .error ()
    | .ok none => .ok none
    | .ok (some payload) =>
      if pyTruthy payload then .ok (some payload) else .ok none

/-- `process_vehicle_linkages`, restricted to its envelope-normalization
outcome (lines 1563-1581): the payload must additionally be a (truthy)
list, otherwise the function returns without records. -/
def linkages_envelope (resp : Json) : Except Unit (Option (List Json)) :=
  if !pyTruthy resp then .ok none
  else
    match linkages_envelope_data resp with
    | .error _ => .error ()
    | .ok none => .ok none
    | .ok (some (Json.arr xs)) => if xs.isEmpty then .ok none else .ok (some xs)
    | .ok (some _) => .ok none

/-- The envelope normalizer as the spec's §4.1 words describe it: try a
direct list first, then the `array` key, then `data.array`, then `data`
itself being a list, returning the record list of the first form that
yields a list, and empty when none match.  Stated for comparison with
the two source-derived normalizers above. -/
def specOrder_normalize (resp : Json) : Option (List Json) :=
  match resp with
  | .arr xs => some xs
  | .obj fs =>
    match objLookup fs (lit "array") with
    | some (.arr xs) => some xs
    | _ =>
      match objLookup fs (lit "data") with
      | some (.obj dfs) =>
        (match objLookup dfs (lit "array") with
         | some (.arr xs) => some xs
         | _ => none)
      | some (.arr xs) => some xs
      | _ => none
  | _ => none

/-! ### Paginated collection -/

/-- The page loop of `get_linkage_targets` (tecdoc_export.py lines
410-427).  `fetchPage p` is `none` when the page-`p` request fails or
its response lacks the record key, and the page's record list otherwise.
The loop runs while `returned < total` and `page <= 500` (the hard
ceiling, `max_pages`); a failed or empty page breaks out keeping the
accumulated records.  `fuel` only bounds the recursion: the initial call
passes 500, which the `page <= 500` test exhausts first, since the page
counter starts at 2 and increases by one per iteration. -/
def fetchLoop {α : Type} (fetchPage : Nat → Option (List α)) (total : Nat) :
    Nat → Nat → Nat → List α → List α
  | 0, _, _, acc => acc
  | fuel + 1, page, returned, acc =>
    if returned < total ∧ page ≤ 500 then
      match fetchPage page with
      | some pageTargets =>
        if pageTargets.length = 0 then acc
        else
          fetchLoop fetchPage total fuel (page + 1)
            (returned + pageTargets.length) (acc ++ pageTargets)
      | none => acc
    else acc

/-- The pagination logic of `get_linkage_targets` (lines 400-431).
`first` is the first-page response: `none` for a falsy response,
`some (none, ts)` when the response has no `total` key (returned
unchanged), and `some (some total, ts)` otherwise.  When the first page
returned fewer than `total` records and at least one record, the
remaining pages are fetched starting at page 2. -/
def get_linkage_targets {α : Type} (first : Option (Option Nat × List α))
    (fetchPage : Nat → Option (List α)) : Option (Option Nat × List α) :=
  match first with
  | none => none
  | some (none, ts) => some (none, ts)
  | some (some total, ts) =>
    if ts.length < total ∧ 0 < ts.length then
      some (some total, fetchLoop fetchPage total 500 2 ts.length ts)
    else some (some total, ts)

/-! ### Reference accumulation -/

/-- One row of the references table (`self.csv_data['references']`). -/
structure RefRow where
  article_id : Int
  ref_type : Str
  number : Str
  mfr_name : Str
deriving DecidableEq, Repr

/-- A reference entry with an article number and a manufacturer name
(the dict shape of `oemNumbers`, `comparableNumbers`,
`replacesArticles` and `replacedByArticles` elements). -/
structure RefEntry where
  number : Str
  mfrName : Str
deriving DecidableEq, Repr

/-- One article of a searchType-10 response, restricted to the fields
`extract_all_reference_numbers` reads.  The source guards every list
with `'key' in article and article['key']`, which conflates a missing
key with an empty list, so a missing list key is modelled as `[]`; a
missing `dataSupplierId` is `none`. -/
structure RespArticle where
  dataSupplierId : Option Int
  articleNumber : Str
  gtins : List Str
  tradeNumbers : List Str
  oemNumbers : List RefEntry
  comparableNumbers : List RefEntry
  replacesArticles : List RefEntry
  replacedByArticles : List RefEntry
deriving Repr

/-- Reference-type tag EAN. -/
def tEAN : Str := lit "EAN"

/-- Reference-type tag TRADE. -/
def tTRADE : Str := lit "TRADE"

/-- Reference-type tag OE. -/
def tOE : Str := lit "OE"

/-- Reference-type tag COMPARABLE. -/
def tCOMPARABLE : Str := lit "COMPARABLE"

/-- Reference-type tag REPLACEMENT. -/
def tREPLACEMENT : Str := lit "REPLACEMENT"

/-- Reference-type tag REPLACED. -/
def tREPLACED : Str := lit "REPLACED"

/-- The running state of one `extract_all_reference_numbers` call:
the accumulated rows, the `existing_refs` key set (a list, used only
through membership) and the per-call `ean_added` flag. -/
structure AccState where
  refs : List RefRow
  existing : List (Str × Str × Str)
  eanAdded : Bool

/-- Python truthiness of an optional integer (`None` and `0` falsy). -/
def optIntTruthy : Option Int → Bool
  | some n => n != 0
  | none => false

/-- Python truthiness of an optional string. -/
def optStrTruthy : Option Str → Bool
  | some s => !s.isEmpty
  | none => false

/-- The two `continue` filters at the top of the per-article loop
(lines 770-781): skip articles of another supplier, and comparable
articles with a different article number. -/
def articleSkipped (sup : Option Int) (anum : Option Str) (a : RespArticle) : Bool :=
  (optIntTruthy sup && !(a.dataSupplierId == sup))
    || (optStrTruthy anum && !(some a.articleNumber == anum))

/-- The gtin loop (lines 784-804): the first stripped-nonempty gtin
whose key is not yet among the accumulated keys is the one appended;
a gtin whose key already exists does not stop the search. -/
def findFirstNewGtin (existing : List (Str × Str × Str)) : List Str → Option Str
  | [] => none
  | g :: rest =>
    let n := strTrim g
    if n.isEmpty then findFirstNewGtin existing rest
    else if existing.contains (tEAN, n, ([] : Str)) then findFirstNewGtin existing rest
    else some n

/-- One step of the tradeNumbers loop (lines 807-826): strip, skip
empties and already-present keys, otherwise append row and key. -/
def addSimpleRef (aid : Int) (ty : Str) (st : AccState) (g : Str) : AccState :=
  let n := strTrim g
  if n.isEmpty then st
  else
    let k := (ty, n, ([] : Str))
    if st.existing.contains k then st
    else
      { st with refs := st.refs ++ [⟨aid, ty, n, []⟩], existing := st.existing ++ [k] }

/-- One step of the structured-entry loops (oemNumbers and the three
loops after it, lines 829-922): skip empty numbers and already-present
keys, otherwise append row and key. -/
def addEntryRef (aid : Int) (ty : Str) (st : AccState) (e : RefEntry) : AccState :=
  if e.number.isEmpty then st
  else
    let k := (ty, e.number, e.mfrName)
    if st.existing.contains k then st
    else
      { st with refs := st.refs ++ [⟨aid, ty, e.number, e.mfrName⟩],
                existing := st.existing ++ [k] }

/-- The body of the per-article loop of `extract_all_reference_numbers`
(lines 766-922). -/
def processRespArticle (aid : Int) (sup : Option Int) (anum : Option Str)
    (st : AccState) (a : RespArticle) : AccState :=
  if articleSkipped sup anum a then st
  else
    let st1 :=
      if !a.gtins.isEmpty && !st.eanAdded then
        match findFirstNewGtin st.existing a.gtins with
        | some n =>
          { refs := st.refs ++ [⟨aid, tEAN, n, []⟩],
            existing := st.existing ++ [(tEAN, n, ([] : Str))],
            eanAdded := true }
        | none => st
      else st
    let st2 := a.tradeNumbers.foldl (addSimpleRef aid tTRADE) st1
    let st3 := a.oemNumbers.foldl (addEntryRef aid tOE) st2
    let st4 := a.comparableNumbers.foldl (addEntryRef aid tCOMPARABLE) st3
    let st5 := a.replacesArticles.foldl (addEntryRef aid tREPLACEMENT) st4
    a.replacedByArticles.foldl (addEntryRef aid tREPLACED) st5

/-- The `existing_refs` preload (lines 757-761): the keys of the rows
already accumulated for this article id. -/
def initExisting (refs : List RefRow) (aid : Int) : List (Str × Str × Str) :=
  (refs.filter (fun r => r.article_id == aid)).map
    (fun r => (r.ref_type, r.number, r.mfr_name))

/-- `extract_all_reference_numbers` (lines 730-922) as a transformation
of the accumulated reference rows; an empty article list returns the
rows unchanged (lines 747-752). -/
def extract_all_reference_numbers (aid : Int) (sup : Option Int) (anum : Option Str)
    (articles : List RespArticle) (refs : List RefRow) : List RefRow :=
  if articles.isEmpty then refs
  else
    (articles.foldl (processRespArticle aid sup anum)
      ⟨refs, initExisting refs aid, false⟩).refs

/-- The EAN rows accumulated for one parent. -/
def eanRows (aid : Int) (refs : List RefRow) : List RefRow :=
  refs.filter (fun r => r.article_id == aid && r.ref_type == tEAN)

/-- The first EAN candidate in input order: over the filter-passing
articles, the first stripped-nonempty gtin value. -/
def firstEanCandidate (sup : Option Int) (anum : Option Str)
    (articles : List RespArticle) : Option Str :=
  (articles.filter (fun a => !articleSkipped sup anum a)).findSome?
    (fun a => (a.gtins.map strTrim).find? (fun n => !n.isEmpty))

/-- A single-gtin article with no other payload, used as concrete
input. -/
def exRefArticle (g : Str) : RespArticle :=
  { dataSupplierId := none, articleNumber := [], gtins := [g],
    tradeNumbers := [], oemNumbers := [], comparableNumbers := [],
    replacesArticles := [], replacedByArticles := [] }

/-- State invariant threaded through one accumulation call: the parent's
EAN rows and the flag are pinned, and while the flag is down the key set
holds no EAN-typed key. -/
def AccInv (aid : Int) (E : List RefRow) (A : Bool) (st : AccState) : Prop :=
  eanRows aid st.refs = E ∧ st.eanAdded = A
    ∧ (A = false → ∀ k ∈ st.existing, k.1 ≠ tEAN)

/-! ### The linkage correlator -/

/-- A vehicles-table row: the 14 columns built in
`process_vehicle_linkages` (lines 1631-1646). -/
structure VehicleRow where
  article_id : Int
  vehicle_mfr_name : Str
  model_series_name : Str
  type_name : Str
  year_from : Str
  year_to : Str
  engine_cc : Str
  power_hp : Str
  fuel_type : Str
  body_style : Str
  drive_type : Str
  kba_numbers : Str
  engine_code : Str
  other_restrictions : Str
deriving DecidableEq, Repr

/-- A linkage-target detail record, restricted to the fields
`enrich_vehicles_with_linkage_targets` reads.  Fields used inside
f-string keys or after `str()` (`mfrId`, `horsePowerFrom`, `capacityCC`)
are modelled in string form; `engines` elements are modelled in their
dict shape (the extracted `code` value) and `vehiclesInOperation`
elements in their dict shape (the extracted description text). -/
structure LinkageTarget where
  linkageTargetId : Option Int
  mfrId : Str
  description : Str
  vehicleModelSeriesName : Str
  horsePowerFrom : Str
  capacityCC : Str
  fuelType : Str
  bodyStyle : Str
  driveType : Str
  kbaNumbers : List Str
  engines : List Str
  vehiclesInOperation : List Str
deriving DecidableEq, Repr

/-- The provisional-index entry stored per vehicle (lines 1652-1657). -/
structure VehicleInfo where
  row : VehicleRow
  mfr_id : Str
  mfr_name : Str
  construction_type : Str
deriving DecidableEq, Repr

/-- Insert into an association list with Python-dict overwrite
semantics: an existing key keeps its position and gets the new value, a
new key goes to the end. -/
def dictInsert {β : Type} (m : List (Int × β)) (k : Int) (v : β) : List (Int × β) :=
  match m with
  | [] => [(k, v)]
  | (k', v') :: rest =>
    if k' == k then (k', v) :: rest else (k', v') :: dictInsert rest k v

/-- `linkage_targets_lookup` (lines 1719-1723): only targets with a
truthy `linkageTargetId` are inserted. -/
def buildIdLookup (targets : List LinkageTarget) : List (Int × LinkageTarget) :=
  targets.foldl
    (fun m t =>
      match t.linkageTargetId with
      | some n => if n != 0 then dictInsert m n t else m
      | none => m) []

/-- `dict.get(k, default-absent)` over the association list. -/
def idLookupGet {β : Type} (m : List (Int × β)) (k : Int) : Option β :=
  (m.find? (fun p => p.1 == k)).map (fun p => p.2)

/-- Insert into a keyed-group index with Python-dict semantics: an
existing key appends the value to its group in place, a new key goes to
the end (dict iteration order is insertion order). -/
def indexInsert {β : Type} (idx : List (Str × List β)) (k : Str) (t : β) :
    List (Str × List β) :=
  match idx with
  | [] => [(k, [t])]
  | (k', g) :: rest =>
    if k' == k then (k', g ++ [t]) :: rest else (k', g) :: indexInsert rest k t

/-- Whether a target enters the description index (line 1764): stripped
description and manufacturer id both truthy. -/
def descIndexed (t : LinkageTarget) : Bool :=
  !(strTrim t.description).isEmpty && !t.mfrId.isEmpty

/-- The description-index key of a target, `f"{mfr_id}_{desc}"` with the
stripped description (lines 1756, 1765). -/
def descKeyOf (t : LinkageTarget) : Str :=
  t.mfrId ++ '_' :: strTrim t.description

/-- `lookup_by_desc` (lines 1751-1768). -/
def buildDescIdx (targets : List LinkageTarget) : List (Str × List LinkageTarget) :=
  targets.foldl
    (fun idx t => if descIndexed t then indexInsert idx (descKeyOf t) t else idx) []

/-- Whether a target enters the specification index (line 1771). -/
def specIndexed (t : LinkageTarget) : Bool :=
  !t.mfrId.isEmpty && !(strTrim t.vehicleModelSeriesName).isEmpty
    && !t.horsePowerFrom.isEmpty && !t.capacityCC.isEmpty

/-- The specification-index key (line 1772). -/
def specKeyOf (t : LinkageTarget) : Str :=
  t.mfrId ++ '_' :: strTrim t.vehicleModelSeriesName
    ++ '_' :: t.horsePowerFrom ++ '_' :: t.capacityCC

/-- `lookup_by_specs` (lines 1752-1775). -/
def buildSpecIdx (targets : List LinkageTarget) : List (Str × List LinkageTarget) :=
  targets.foldl
    (fun idx t => if specIndexed t then indexInsert idx (specKeyOf t) t else idx) []

/-- Group lookup in a keyed-group index. -/
def idxFind {β : Type} (idx : List (Str × List β)) (k : Str) : Option (List β) :=
  (idx.find? (fun p => p.1 == k)).map (fun p => p.2)

/-- The tier-2 linear scan (lines 1802-1812): walk the description index
in insertion order; under every key starting with `{mfr_id}_` examine
only the first target of the group; accept when its (raw) description
and the source type name are substrings of one another, the source type
name is longer than 5 characters, and the power ratings agree or the
target has none; otherwise continue with the next key. -/
def tier2Scan :
    List (Str × List LinkageTarget) → Str → Str → Str → Option LinkageTarget
  | [], _, _, _ => none
  | (k, g) :: rest, mfr_id, type_name, power_hp =>
    match g with
    | [] => tier2Scan rest mfr_id type_name power_hp
    | t :: _ =>
      if (mfr_id ++ ['_']).isPrefixOf k then
        if (strSub type_name t.description || strSub t.description type_name) = true
            ∧ 5 < type_name.length then
          if power_hp == t.horsePowerFrom || t.horsePowerFrom.isEmpty then some t
          else tier2Scan rest mfr_id type_name power_hp
        else tier2Scan rest mfr_id type_name power_hp
      else tier2Scan rest mfr_id type_name power_hp

/-- Tier 2 in full (lines 1796-1812): exact key lookup on
`f"{mfr_id}_{type_name}"` taking the first target of a nonempty group,
falling back to the linear scan. -/
def tier2Match (descIdx : List (Str × List LinkageTarget))
    (mfr_id type_name power_hp : Str) : Option LinkageTarget :=
  if !mfr_id.isEmpty && !type_name.isEmpty then
    match idxFind descIdx (mfr_id ++ '_' :: type_name) with
    | some (t :: _) => some t
    | _ => tier2Scan descIdx mfr_id type_name power_hp
  else none

/-- Tier 3 (lines 1815-1818): exact composite-key lookup taking the
first target of a nonempty group. -/
def tier3Match (specIdx : List (Str × List LinkageTarget))
    (mfr_id model_series power_hp engine_cc : Str) : Option LinkageTarget :=
  if !mfr_id.isEmpty && !model_series.isEmpty
      && !power_hp.isEmpty && !engine_cc.isEmpty then
    match idxFind specIdx
        (mfr_id ++ '_' :: model_series ++ '_' :: power_hp ++ '_' :: engine_cc) with
    | some (t :: _) => some t
    | _ => none
  else none

/-- The per-vehicle matching chain (lines 1784-1818): tier-1 direct id
lookup (a present target dict is truthy), then the description
strategy, then the specification strategy; the row fields feeding tiers
2 and 3 are stripped first (lines 1789-1793). -/
def matchTarget (idLookup : List (Int × LinkageTarget))
    (descIdx specIdx : List (Str × List LinkageTarget))
    (ltid : Int) (vi : VehicleInfo) : Option LinkageTarget :=
  match idLookupGet idLookup ltid with
  | some t => some t
  | none =>
    match tier2Match descIdx vi.mfr_id (strTrim vi.row.type_name)
        (strTrim vi.row.power_hp) with
    | some t => some t
    | none =>
      tier3Match specIdx vi.mfr_id (strTrim vi.row.model_series_name)
        (strTrim vi.row.power_hp) (strTrim vi.row.engine_cc)

/-- The field-merge step on a successful match (lines 1827-1865): each
enrichable field takes the truthy detail value and otherwise keeps the
row's existing value; multi-valued fields drop falsy elements and are
pipe-joined. -/
def enrichRow (row : VehicleRow) (t : LinkageTarget) : VehicleRow :=
  let kba := t.kbaNumbers.filter (fun k => !k.isEmpty)
  let codes := t.engines.filter (fun c => !c.isEmpty)
  let restr := t.vehiclesInOperation.filter (fun r => !r.isEmpty)
  { row with
    fuel_type := if !t.fuelType.isEmpty then t.fuelType else row.fuel_type,
    body_style := if !t.bodyStyle.isEmpty then t.bodyStyle else row.body_style,
    drive_type := if !t.driveType.isEmpty then t.driveType else row.drive_type,
    kba_numbers := if !kba.isEmpty then joinBar kba else row.kba_numbers,
    engine_code := if !codes.isEmpty then joinBar codes else row.engine_code,
    other_restrictions :=
      if !restr.isEmpty then joinBar restr else row.other_restrictions }

/-- One iteration of the enrichment loop (lines 1779-1868): the row is
enriched when some tier matched and left unchanged otherwise; either
way it is appended. -/
def correlateVehicle (idLookup : List (Int × LinkageTarget))
    (descIdx specIdx : List (Str × List LinkageTarget))
    (ltid : Int) (vi : VehicleInfo) : VehicleRow :=
  match matchTarget idLookup descIdx specIdx ltid vi with
  | some t => enrichRow vi.row t
  | none => vi.row

/-- All rows of the provisional index, in iteration order. -/
def allLookupRows (vlookup : List (Int × List VehicleInfo)) : List VehicleRow :=
  (vlookup.map (fun p => p.2.map (fun vi => vi.row))).flatten

/-- `enrich_vehicles_with_linkage_targets` (lines 1663-1877) as the list
of rows it appends to the vehicles table.  An empty provisional index
appends nothing (line 1665); when no vehicle carries a manufacturer id
(lines 1678-1684) or the id lookup over the fetched targets is empty
(lines 1725-1732), every row is appended unenriched; otherwise every
vehicle goes through the matching chain. -/
def enrich_vehicles_with_linkage_targets (targets : List LinkageTarget)
    (vlookup : List (Int × List VehicleInfo)) : List VehicleRow :=
  if vlookup.isEmpty then []
  else if !(vlookup.any (fun p => p.2.any (fun vi => !vi.mfr_id.isEmpty))) then
    allLookupRows vlookup
  else if (buildIdLookup targets).isEmpty then allLookupRows vlookup
  else
    (vlookup.map (fun p =>
      p.2.map (correlateVehicle (buildIdLookup targets) (buildDescIdx targets)
        (buildSpecIdx targets) p.1))).flatten

/-! ### Vehicle-linkage processing -/

/-- A raw linked-vehicle record, restricted to the fields the row
construction of `process_vehicle_linkages` reads; values later passed
through `str()` are modelled in string form, the optional integer ids
with `none` for a missing key or empty-string default. -/
structure RawVehicle where
  yearOfConstructionFrom : Str
  yearOfConstructionTo : Str
  hasPowerHpFrom : Bool
  powerHpFrom : Str
  powerHpTo : Str
  linkingTargetId : Option Int
  carId : Option Int
  constructionType : Str
  manuId : Str
  manuDesc : Str
  modelDesc : Str
  carDesc : Str
  cylinderCapacity : Option Int
deriving Repr

/-- The power range (lines 1616-1623): `from-to` when both bounds are
truthy and differ, the lower bound when only it is truthy. -/
def powerHpOf (v : RawVehicle) : Str :=
  if v.hasPowerHpFrom then
    if !v.powerHpFrom.isEmpty && !v.powerHpTo.isEmpty
        && !(v.powerHpFrom == v.powerHpTo) then
      v.powerHpFrom ++ '-' :: v.powerHpTo
    else if !v.powerHpFrom.isEmpty then v.powerHpFrom
    else []
  else []

/-- The correlation hint (line 1626):
`vehicle.get('_linkingTargetId') or vehicle.get('carId', '')`. -/
def hintOf (v : RawVehicle) : Option Int :=
  if optIntTruthy v.linkingTargetId then v.linkingTargetId
  else if optIntTruthy v.carId then v.carId
  else none

/-- The row construction of `process_vehicle_linkages`
(lines 1610-1646): enrichment-only fields start empty and the body
style starts as the construction-type hint. -/
def mkVehicleRow (aid : Int) (v : RawVehicle) : VehicleRow :=
  { article_id := aid,
    vehicle_mfr_name := v.manuDesc,
    model_series_name := v.modelDesc,
    type_name := v.carDesc,
    year_from := format_year_month v.yearOfConstructionFrom,
    year_to := format_year_month v.yearOfConstructionTo,
    engine_cc :=
      match v.cylinderCapacity with
      | some n => if n != 0 then intStr n else []
      | none => [],
    power_hp := powerHpOf v,
    fuel_type := [],
    body_style := v.constructionType,
    drive_type := [],
    kba_numbers := [],
    engine_code := [],
    other_restrictions := [] }

/-- The run state touched by `process_vehicle_linkages`: the vehicles
table and the provisional index `self.vehicle_lookup`. -/
structure PState where
  vehicles : List VehicleRow
  vlookup : List (Int × List VehicleInfo)

/-- Append a vehicle info under a provisional-index key
(lines 1649-1657). -/
def vlookupAppend (m : List (Int × List VehicleInfo)) (k : Int)
    (vi : VehicleInfo) : List (Int × List VehicleInfo) :=
  match m with
  | [] => [(k, [vi])]
  | (k', g) :: rest =>
    if k' == k then (k', g ++ [vi]) :: rest else (k', g) :: vlookupAppend rest k vi

/-- The per-vehicle tail of `process_vehicle_linkages`
(lines 1610-1661): build the row; with a truthy correlation hint, store
it in the provisional index, otherwise append it directly to the
vehicles table. -/
def processVehicle (aid : Int) (st : PState) (v : RawVehicle) : PState :=
  let row := mkVehicleRow aid v
  match hintOf v with
  | some k =>
    { st with vlookup := vlookupAppend st.vlookup k ⟨row, v.manuId, v.manuDesc, v.constructionType⟩ }
  | none => { st with vehicles := st.vehicles ++ [row] }

/-- A concrete detail target with catalog id 5. -/
def exTarget : LinkageTarget :=
  { linkageTargetId := some 5, mfrId := lit "7", description := lit "Panda 1.2",
    vehicleModelSeriesName := lit "PANDA", horsePowerFrom := lit "69",
    capacityCC := lit "1242", fuelType := lit "Petrol", bodyStyle := [],
    driveType := [], kbaNumbers := [], engines := [], vehiclesInOperation := [] }

/-- A concrete detail target whose description has only 4 characters. -/
def shortDescTarget : LinkageTarget :=
  { linkageTargetId := none, mfrId := lit "7", description := lit "anda",
    vehicleModelSeriesName := [], horsePowerFrom := lit "69", capacityCC := [],
    fuelType := lit "Petrol", bodyStyle := [], driveType := [],
    kbaNumbers := [], engines := [], vehiclesInOperation := [] }

/-- A concrete source vehicle row. -/
def exRow : VehicleRow :=
  { article_id := 1, vehicle_mfr_name := lit "FIAT",
    model_series_name := lit "PANDA", type_name := lit "Panda 1.2",
    year_from := [], year_to := [], engine_cc := lit "1242",
    power_hp := lit "69", fuel_type := [], body_style := [], drive_type := [],
    kba_numbers := [], engine_code := [], other_restrictions := [] }

/-- A concrete provisional-index entry wrapping `exRow`. -/
def exInfo : VehicleInfo :=
  { row := exRow, mfr_id := lit "7", mfr_name := lit "FIAT",
    construction_type := [] }

/-- A concrete raw vehicle that carries no correlation hint. -/
def exRawVehicle : RawVehicle :=
  { yearOfConstructionFrom := lit "199406", yearOfConstructionTo := [],
    hasPowerHpFrom := true, powerHpFrom := lit "69", powerHpTo := lit "69",
    linkingTargetId := none, carId := none,
    constructionType := lit "Hatchback", manuId := lit "7",
    manuDesc := lit "FIAT", modelDesc := lit "PANDA",
    carDesc := lit "Panda 1.2", cylinderCapacity := some 1242 }

/-- The tier-2 index-eligibility and key predicate of a detail record,
used to say which detail a tier-2 result must be (the first in input
order that is indexed under the result's key). -/
def descPred (k : Str) (u : LinkageTarget) : Bool :=
  descIndexed u && (descKeyOf u == k)

/-! ### Deduplication -/

/-- The natural-key tuple type of the vehicle deduplication. -/
abbrev DKey :=
  Int × Str × Str × Str × Str × Str × Str × Str × Str × Str × Str × Str

/-- The natural key of `export_vehicles_csv` (lines 2012-2025): twelve
row fields; `kba_numbers` and `other_restrictions` are not part of it. -/
def dedupKey (r : VehicleRow) : DKey :=
  (r.article_id, r.vehicle_mfr_name, r.model_series_name, r.type_name,
   r.year_from, r.year_to, r.engine_cc, r.power_hp, r.fuel_type,
   r.body_style, r.drive_type, r.engine_code)

/-- The deduplication loop of `export_vehicles_csv` (lines 2007-2030):
keep a row only when its natural key has not been seen yet. -/
def dedupeGo (seen : List DKey) : List VehicleRow → List VehicleRow
  | [] => []
  | r :: rest =>
    if seen.contains (dedupKey r) then dedupeGo seen rest
    else r :: dedupeGo (dedupKey r :: seen) rest

/-- The deduplication pass of `export_vehicles_csv`, starting from an
empty seen set. -/
def export_vehicles_dedupe (rows : List VehicleRow) : List VehicleRow :=
  dedupeGo [] rows

/-- First-occurrence-wins deduplication as the spec words it: keep each
record and drop every later record sharing its natural key.  Stated for
comparison with the source-derived loop above. -/
def firstOccurrences : List VehicleRow → List VehicleRow
  | [] => []
  | r :: rest =>
    r :: firstOccurrences (rest.filter (fun s => !(dedupKey s == dedupKey r)))
termination_by l => l.length
decreasing_by
  simp only [List.length_cons]
  exact Nat.lt_succ_of_le (List.length_filter_le _ _)

/-- `exRow` with KBA numbers attached; same natural key as `exRow`. -/
def exRowKba : VehicleRow :=
  { exRow with kba_numbers := lit "0588AAL" }

end Tecdoc

namespace Tecdoc

/-- C8: year-field normalization maps a bare 6-digit YYYYMM input to
YYYY-MM by inserting the separator after the 4th digit, maps a bare
4-digit YYYY input to YYYY-01 by appending "-01", and returns an input
already in YYYY-MM form (7 characters containing a dash) unchanged. -/
theorem C8_year_format (s : Str) :
    (s.length = 6 → isDigitStr s = true →
      format_year_month s = s.take 4 ++ '-' :: s.drop 4)
    ∧ (s.length = 4 → isDigitStr s = true →
      format_year_month s = s ++ lit "-01")
    ∧ (s.length = 7 → s.contains '-' = true →
      format_year_month s = s) := by
  refine ⟨?_, ?_, ?_⟩
  · intro h6 hd
    have hne : s.isEmpty = false := by
      cases s with
      | nil => simp at h6
      | cons a t => rfl
    have htk : (s.drop 4).take 2 = s.drop 4 := by
      apply List.take_of_length_le
      simp [List.length_drop, h6]
    simp [format_year_month, hne, h6, hd, htk]
  · intro h4 hd
    have hne : s.isEmpty = false := by
      cases s with
      | nil => simp at h4
      | cons a t => rfl
    simp [format_year_month, hne, h4, hd]
  · intro h7 hc
    have hne : s.isEmpty = false := by
      cases s with
      | nil => simp at h7
      | cons a t => rfl
    simp [format_year_month, hne, h7, hc]

/-- Witness for C8 at the concrete inputs "199406", "1994" and "1994-06". -/
theorem C8_year_format_witness :
    format_year_month (lit "199406") = (lit "199406").take 4 ++ '-' :: (lit "199406").drop 4
    ∧ format_year_month (lit "1994") = lit "1994" ++ lit "-01"
    ∧ format_year_month (lit "1994-06") = lit "1994-06" := by
  refine ⟨?_, ?_, ?_⟩
  · exact (C8_year_format (lit "199406")).1 (by decide) (by decide)
  · exact (C8_year_format (lit "1994")).2.1 (by decide) (by decide)
  · exact (C8_year_format (lit "1994-06")).2.2 (by decide) (by decide)

/-- C6 (counterexample): the claim says the normalizer tries the direct-
list form first and returns the record list of the first form that
yields a list; but on a direct (non-empty) list the linkage normalizer
returns "no data", because the source checks the `array` and `data`
keys only and has no direct-list branch, so the claimed priority order
is not the code's order. -/
theorem C6_direct_list_counterexample :
    specOrder_normalize (Json.arr [Json.obj [(lit "a", Json.num 1)]])
      = some [Json.obj [(lit "a", Json.num 1)]]
    ∧ linkages_envelope (Json.arr [Json.obj [(lit "a", Json.num 1)]])
      = Except.ok none :=
  ⟨rfl, rfl⟩

/-- C6 (amended): the normalizers try the `{array: [...]}` form first,
then `{data: {array: [...]}}`, then `{data: [...]}`; the attributes
variant accepts a direct list only as a last resort, while the linkage
variant has no direct-list form and returns empty (not an error) for a
direct list; both return empty when no form matches. -/
theorem C6_envelope_order (xs ys : List Json) (hne : xs ≠ [])
    (hlit : xs.all
      (fun e => !jsonIsStrVal e (lit "array") && !jsonIsStrVal e (lit "data")) = true) :
    process_attributes_envelope (Json.obj [(lit "array", Json.arr xs)])
      = .ok (some (Json.arr xs))
    ∧ linkages_envelope (Json.obj [(lit "array", Json.arr xs)]) = .ok (some xs)
    ∧ process_attributes_envelope
        (Json.obj [(lit "data", Json.obj [(lit "array", Json.arr xs)])])
      = .ok (some (Json.arr xs))
    ∧ linkages_envelope (Json.obj [(lit "data", Json.obj [(lit "array", Json.arr xs)])])
      = .ok (some xs)
    ∧ process_attributes_envelope (Json.obj [(lit "data", Json.arr xs)])
      = .ok (some (Json.arr xs))
    ∧ linkages_envelope (Json.obj [(lit "data", Json.arr xs)]) = .ok (some xs)
    ∧ process_attributes_envelope
        (Json.obj [(lit "array", Json.arr xs), (lit "data", Json.arr ys)])
      = .ok (some (Json.arr xs))
    ∧ process_attributes_envelope (Json.arr xs) = .ok (some (Json.arr xs))
    ∧ linkages_envelope (Json.arr xs) = .ok none
    ∧ process_attributes_envelope (Json.obj [(lit "foo", Json.num 1)]) = .ok none
    ∧ linkages_envelope (Json.obj [(lit "foo", Json.num 1)]) = .ok none := by
  have hxe : xs.isEmpty = false := by
    cases xs with
    | nil => exact absurd rfl hne
    | cons a t => rfl
  have kaa : (lit "array" == lit "array") = true := by decide
  have kdd : (lit "data" == lit "data") = true := by decide
  have kda : (lit "data" == lit "array") = false := by decide
  have kad : (lit "array" == lit "data") = false := by decide
  have kfa : (lit "foo" == lit "array") = false := by decide
  have kfd : (lit "foo" == lit "data") = false := by decide
  have ha : (xs.any (fun e => jsonIsStrVal e (lit "array"))) = false := by
    rw [List.any_eq_false]
    intro e he
    have h := List.all_eq_true.mp hlit e he
    simp only [Bool.and_eq_true, Bool.not_eq_true'] at h
    simp [h.1]
  have hd : (xs.any (fun e => jsonIsStrVal e (lit "data"))) = false := by
    rw [List.any_eq_false]
    intro e he
    have h := List.all_eq_true.mp hlit e he
    simp only [Bool.and_eq_true, Bool.not_eq_true'] at h
    simp [h.2]
  refine ⟨?_, ?_, ?_, ?_, ?_, ?_, ?_, ?_, ?_, ?_, ?_⟩ <;>
    simp [process_attributes_envelope, attributes_envelope_data,
      linkages_envelope, linkages_envelope_data, pyContains, pyIndex,
      pyDictGet, objHasKey, objLookup, pyTruthy, isList, Except.map,
      hxe, kaa, kdd, kda, kad, kfa, kfd, ha, hd]

/-- Witness for C6's amended theorem at concrete content. -/
theorem C6_envelope_order_witness :
    process_attributes_envelope (Json.obj [(lit "array", Json.arr [Json.num 5])])
      = .ok (some (Json.arr [Json.num 5]))
    ∧ linkages_envelope (Json.arr [Json.num 5]) = .ok none := by
  have h := C6_envelope_order [Json.num 5] [Json.num 6]
    (List.cons_ne_nil _ _) (by decide)
  exact ⟨h.1, h.2.2.2.2.2.2.2.2.1⟩

set_option maxRecDepth 40000 in
/-- C5: the paginated collector stops at the hard 500-page ceiling — for
a fetch stub returning one new record per page under a declared total of
100000, collection yields exactly 500 records; a failed page fetch or a
page of zero records stops pagination keeping every previously
accumulated record without raising an error; and once the page counter
exceeds 500 no fetch result is ever taken up again (no retry). -/
theorem C5_pagination :
    get_linkage_targets (some (some 100000, [(7 : Nat)])) (fun _ => some [7])
      = some (some 100000, List.replicate 500 7)
    ∧ (∀ (α : Type) (f : Nat → Option (List α)) (total fuel page returned : Nat)
        (acc : List α), f page = none →
        fetchLoop f total (fuel + 1) page returned acc = acc)
    ∧ (∀ (α : Type) (f : Nat → Option (List α)) (total fuel page returned : Nat)
        (acc : List α), f page = some [] →
        fetchLoop f total (fuel + 1) page returned acc = acc)
    ∧ (∀ (α : Type) (f : Nat → Option (List α)) (total fuel page returned : Nat)
        (acc : List α), 500 < page →
        fetchLoop f total (fuel + 1) page returned acc = acc) := by
  refine ⟨by decide, ?_, ?_, ?_⟩
  · intro α f total fuel page returned acc h
    simp [fetchLoop, h]
  · intro α f total fuel page returned acc h
    simp [fetchLoop, h]
  · intro α f total fuel page returned acc h
    have hnp : ¬(returned < total ∧ page ≤ 500) := by omega
    simp [fetchLoop, hnp]

/-- Witness for C5's failed-page, empty-page and past-ceiling clauses at
concrete inputs. -/
theorem C5_pagination_witness :
    fetchLoop (fun _ => (none : Option (List Nat))) 10 3 2 0 [1] = [1]
    ∧ fetchLoop (fun _ => some ([] : List Nat)) 10 3 2 0 [1] = [1]
    ∧ fetchLoop (fun _ => some [2]) 10 3 501 0 [1] = [1] := by
  have h := C5_pagination
  exact ⟨h.2.1 Nat (fun _ => none) 10 2 2 0 [1] rfl,
    h.2.2.1 Nat (fun _ => some []) 10 2 2 0 [1] rfl,
    h.2.2.2 Nat (fun _ => some [2]) 10 2 501 0 [1] (by decide)⟩

/-- A fold preserves any invariant its step preserves. -/
theorem foldl_invariant {σ β : Type} (f : σ → β → σ) (P : σ → Prop)
    (h : ∀ s b, P s → P (f s b)) :
    ∀ (l : List β) (s : σ), P s → P (l.foldl f s)
  | [], _, hs => hs
  | b :: l, s, hs => foldl_invariant f P h l (f s b) (h s b hs)

/-- `addSimpleRef` with a non-EAN type tag preserves `AccInv`. -/
theorem addSimpleRef_inv {aid : Int} {ty : Str} {E : List RefRow} {A : Bool}
    (hty : ty ≠ tEAN) (st : AccState) (g : Str) (h : AccInv aid E A st) :
    AccInv aid E A (addSimpleRef aid ty st g) := by
  obtain ⟨hE, hA, hK⟩ := h
  simp only [addSimpleRef]
  split_ifs with h1 h2
  · exact ⟨hE, hA, hK⟩
  · exact ⟨hE, hA, hK⟩
  · refine ⟨?_, hA, ?_⟩
    · simp only [eanRows, List.filter_append] at *
      rw [hE]
      simp [beq_eq_false_iff_ne.mpr hty]
    · intro hA0 k hk
      simp only [List.mem_append, List.mem_singleton] at hk
      rcases hk with hk | hk
      · exact hK hA0 k hk
      · subst hk; exact hty

/-- `addEntryRef` with a non-EAN type tag preserves `AccInv`. -/
theorem addEntryRef_inv {aid : Int} {ty : Str} {E : List RefRow} {A : Bool}
    (hty : ty ≠ tEAN) (st : AccState) (e : RefEntry) (h : AccInv aid E A st) :
    AccInv aid E A (addEntryRef aid ty st e) := by
  obtain ⟨hE, hA, hK⟩ := h
  simp only [addEntryRef]
  split_ifs with h1 h2
  · exact ⟨hE, hA, hK⟩
  · exact ⟨hE, hA, hK⟩
  · refine ⟨?_, hA, ?_⟩
    · simp only [eanRows, List.filter_append] at *
      rw [hE]
      simp [beq_eq_false_iff_ne.mpr hty]
    · intro hA0 k hk
      simp only [List.mem_append, List.mem_singleton] at hk
      rcases hk with hk | hk
      · exact hK hA0 k hk
      · subst hk; exact hty

/-- The four non-EAN bulk loops of one article preserve `AccInv`. -/
theorem nonEanLoops_inv {aid : Int}
    {E : List RefRow} {A : Bool} (a : RespArticle) (st : AccState)
    (h : AccInv aid E A st) :
    AccInv aid E A
      (a.replacedByArticles.foldl (addEntryRef aid tREPLACED)
        (a.replacesArticles.foldl (addEntryRef aid tREPLACEMENT)
          (a.comparableNumbers.foldl (addEntryRef aid tCOMPARABLE)
            (a.oemNumbers.foldl (addEntryRef aid tOE)
              (a.tradeNumbers.foldl (addSimpleRef aid tTRADE) st))))) := by
  have h1 := foldl_invariant (addSimpleRef aid tTRADE) (AccInv aid E A)
    (fun s b hs => addSimpleRef_inv (by decide) s b hs) a.tradeNumbers st h
  have h2 := foldl_invariant (addEntryRef aid tOE) (AccInv aid E A)
    (fun s b hs => addEntryRef_inv (by decide) s b hs) a.oemNumbers _ h1
  have h3 := foldl_invariant (addEntryRef aid tCOMPARABLE) (AccInv aid E A)
    (fun s b hs => addEntryRef_inv (by decide) s b hs) a.comparableNumbers _ h2
  have h4 := foldl_invariant (addEntryRef aid tREPLACEMENT) (AccInv aid E A)
    (fun s b hs => addEntryRef_inv (by decide) s b hs) a.replacesArticles _ h3
  exact foldl_invariant (addEntryRef aid tREPLACED) (AccInv aid E A)
    (fun s b hs => addEntryRef_inv (by decide) s b hs) a.replacedByArticles _ h4

/-- Under a key set without EAN keys, the gtin search picks the first
stripped-nonempty gtin. -/
theorem findFirstNewGtin_eq {ex : List (Str × Str × Str)}
    (hex : ∀ k ∈ ex, k.1 ≠ tEAN) :
    ∀ gs : List Str,
      findFirstNewGtin ex gs = (gs.map strTrim).find? (fun n => !n.isEmpty) := by
  intro gs
  induction gs with
  | nil => rfl
  | cons g rest ih =>
    by_cases h1 : (strTrim g).isEmpty
    · simp [findFirstNewGtin, h1, List.find?, ih]
    · have hcp : (tEAN, strTrim g, ([] : Str)) ∉ ex := fun hm => (hex _ hm) rfl
      simp [findFirstNewGtin, h1, hcp, List.find?]

/-- Once the per-call EAN flag is up, processing further articles leaves
the parent's EAN rows untouched. -/
theorem processRespArticle_flag_up {aid : Int} (sup : Option Int)
    (anum : Option Str) {E : List RefRow} (st : AccState) (a : RespArticle)
    (h : AccInv aid E true st) :
    AccInv aid E true (processRespArticle aid sup anum st a) := by
  unfold processRespArticle
  by_cases hskip : articleSkipped sup anum a
  · simpa [hskip] using h
  · have hA := h.2.1
    simp only [hskip, if_false, hA, Bool.not_true, Bool.and_false, if_neg]
    exact nonEanLoops_inv a st h

/-- Folding the remaining articles with the flag up preserves the EAN
rows. -/
theorem fold_flag_up {aid : Int} (sup : Option Int) (anum : Option Str)
    {E : List RefRow} (articles : List RespArticle) (st : AccState)
    (h : AccInv aid E true st) :
    AccInv aid E true (articles.foldl (processRespArticle aid sup anum) st) :=
  foldl_invariant _ (AccInv aid E true)
    (fun s b hs => processRespArticle_flag_up sup anum s b hs) articles st h

/-- Main accumulation lemma: from a flag-down, EAN-free state, the EAN
rows produced by one call are exactly the first eligible candidate. -/
theorem accum_main {aid : Int} {sup : Option Int} {anum : Option Str} :
    ∀ (articles : List RespArticle) (st : AccState),
      AccInv aid ([] : List RefRow) false st →
      eanRows aid ((articles.foldl (processRespArticle aid sup anum) st).refs)
        = (((articles.filter (fun a => !articleSkipped sup anum a)).findSome?
            (fun a => (a.gtins.map strTrim).find? (fun n => !n.isEmpty))).map
            (fun n => RefRow.mk aid tEAN n [])).toList := by
  intro articles
  induction articles with
  | nil =>
    intro st h
    simpa using h.1
  | cons a rest ih =>
    intro st h
    obtain ⟨hE, hA, hK⟩ := h
    by_cases hskip : articleSkipped sup anum a
    · simp only [List.foldl_cons, List.filter_cons, hskip, Bool.not_true]
      have hstep : processRespArticle aid sup anum st a = st := by
        unfold processRespArticle
        simp [hskip]
      rw [hstep]
      simpa using ih st ⟨hE, hA, hK⟩
    · have hfind := findFirstNewGtin_eq (hK rfl) a.gtins
      by_cases hg : a.gtins.isEmpty
      · have hnone : (a.gtins.map strTrim).find? (fun n => !n.isEmpty) = none := by
          rw [List.isEmpty_iff] at hg
          simp [hg]
        have hstep : processRespArticle aid sup anum st a
            = a.replacedByArticles.foldl (addEntryRef aid tREPLACED)
              (a.replacesArticles.foldl (addEntryRef aid tREPLACEMENT)
                (a.comparableNumbers.foldl (addEntryRef aid tCOMPARABLE)
                  (a.oemNumbers.foldl (addEntryRef aid tOE)
                    (a.tradeNumbers.foldl (addSimpleRef aid tTRADE) st)))) := by
          unfold processRespArticle
          simp [hskip, hg]
        simp only [List.foldl_cons, List.filter_cons, hskip, Bool.not_false,
          if_true, List.findSome?_cons, hnone, hstep]
        exact ih _ (nonEanLoops_inv a st ⟨hE, hA, hK⟩)
      · cases hf : (a.gtins.map strTrim).find? (fun n => !n.isEmpty) with
        | none =>
          have hstep : processRespArticle aid sup anum st a
              = a.replacedByArticles.foldl (addEntryRef aid tREPLACED)
                (a.replacesArticles.foldl (addEntryRef aid tREPLACEMENT)
                  (a.comparableNumbers.foldl (addEntryRef aid tCOMPARABLE)
                    (a.oemNumbers.foldl (addEntryRef aid tOE)
                      (a.tradeNumbers.foldl (addSimpleRef aid tTRADE) st)))) := by
            unfold processRespArticle
            simp [hskip, hg, hA, hfind, hf]
          simp only [List.foldl_cons, List.filter_cons, hskip, Bool.not_false,
            if_true, List.findSome?_cons, hf, hstep]
          exact ih _ (nonEanLoops_inv a st ⟨hE, hA, hK⟩)
        | some n =>
          have hstep : processRespArticle aid sup anum st a
              = a.replacedByArticles.foldl (addEntryRef aid tREPLACED)
                (a.replacesArticles.foldl (addEntryRef aid tREPLACEMENT)
                  (a.comparableNumbers.foldl (addEntryRef aid tCOMPARABLE)
                    (a.oemNumbers.foldl (addEntryRef aid tOE)
                      (a.tradeNumbers.foldl (addSimpleRef aid tTRADE)
                        ⟨st.refs ++ [⟨aid, tEAN, n, []⟩],
                         st.existing ++ [(tEAN, n, ([] : Str))], true⟩)))) := by
            unfold processRespArticle
            simp [hskip, hg, hA, hfind, hf]
          have hinv1 : AccInv aid [RefRow.mk aid tEAN n []] true
              ⟨st.refs ++ [⟨aid, tEAN, n, []⟩],
               st.existing ++ [(tEAN, n, ([] : Str))], true⟩ := by
            refine ⟨?_, rfl, by simp⟩
            have hsplit : eanRows aid (st.refs ++ [RefRow.mk aid tEAN n []])
                = eanRows aid st.refs ++ eanRows aid [RefRow.mk aid tEAN n []] := by
              simp [eanRows, List.filter_append]
            rw [hsplit, hE]
            simp [eanRows]
          have hinv2 := nonEanLoops_inv a _ hinv1
          have hfold := fold_flag_up sup anum rest _ hinv2
          simp only [List.foldl_cons, List.filter_cons, hskip, Bool.not_false,
            if_true, List.findSome?_cons, hf, hstep]
          simpa using hfold.1

/-- C2 (counterexample): two successive accumulation calls for the same
parent, each presenting one EAN candidate, leave two EAN rows for that
parent — the per-call flag does not survive across calls, so the
claimed at-most-one-EAN-per-parent invariant over every sequence of
calls fails. -/
theorem C2_crosscall_counterexample :
    (eanRows 1
      (extract_all_reference_numbers 1 none none [exRefArticle (lit "222")]
        (extract_all_reference_numbers 1 none none [exRefArticle (lit "111")] []))).map
      (fun r => r.number) = [lit "111", lit "222"] := by decide

/-- C2 (amended): within a single accumulation call starting from a
state holding no EAN reference for the parent, at most one EAN row is
appended for that parent — exactly the first nonempty candidate value in
input order over the filter-passing articles, or none; across calls the
flag resets, so a later call may append a further EAN for the same
parent. -/
theorem C2_single_call_ean (aid : Int) (sup : Option Int) (anum : Option Str)
    (articles : List RespArticle) (refs : List RefRow)
    (h : eanRows aid refs = []) :
    eanRows aid (extract_all_reference_numbers aid sup anum articles refs)
      = ((firstEanCandidate sup anum articles).map
          (fun n => RefRow.mk aid tEAN n [])).toList := by
  unfold extract_all_reference_numbers
  by_cases he : articles.isEmpty
  · rw [List.isEmpty_iff] at he
    subst he
    simpa [firstEanCandidate] using h
  · simp only [he, if_false]
    refine accum_main articles _ ⟨h, rfl, ?_⟩
    intro _ k hk hkE
    simp only [initExisting, List.mem_map, List.mem_filter] at hk
    obtain ⟨r, ⟨hr, haid⟩, hkey⟩ := hk
    have hmem : r ∈ eanRows aid refs := by
      simp only [eanRows, List.mem_filter, Bool.and_eq_true]
      refine ⟨hr, haid, ?_⟩
      rw [← hkey] at hkE
      simpa using congrArg (fun s => s == tEAN) hkE
    rw [h] at hmem
    exact absurd hmem (List.not_mem_nil r)

/-- Witness for C2's amended theorem: a single call over two articles
with two candidate EANs appends only the first. -/
theorem C2_single_call_ean_witness :
    eanRows 1
      (extract_all_reference_numbers 1 none none
        [exRefArticle (lit "111"), exRefArticle (lit "222")] [])
      = ((firstEanCandidate none none
          [exRefArticle (lit "111"), exRefArticle (lit "222")]).map
          (fun n => RefRow.mk 1 tEAN n [])).toList :=
  C2_single_call_ean 1 none none
    [exRefArticle (lit "111"), exRefArticle (lit "222")] [] rfl

/-- C1: a source record whose correlation hint is a key of the prebuilt
detail lookup takes that tier-1 match, and the result is the same for
any description or specification index whatsoever — tiers 2 and 3 are
never consulted for it, even when they hold conflicting candidates. -/
theorem C1_tier1_precedence (targets : List LinkageTarget)
    (descIdx specIdx descIdx' specIdx' : List (Str × List LinkageTarget))
    (ltid : Int) (vi : VehicleInfo) (t : LinkageTarget)
    (h : idLookupGet (buildIdLookup targets) ltid = some t) :
    matchTarget (buildIdLookup targets) descIdx specIdx ltid vi = some t
    ∧ matchTarget (buildIdLookup targets) descIdx specIdx ltid vi
      = matchTarget (buildIdLookup targets) descIdx' specIdx' ltid vi := by
  constructor
  · simp [matchTarget, h]
  · simp [matchTarget, h]

/-- Witness for C1 at a one-target catalog whose id 5 is also the
source hint, against an arbitrary conflicting tier-2 index. -/
theorem C1_tier1_precedence_witness :
    matchTarget (buildIdLookup [exTarget]) [(lit "7_anda", [shortDescTarget])] []
      5 exInfo = some exTarget :=
  (C1_tier1_precedence [exTarget] [(lit "7_anda", [shortDescTarget])] [] [] []
    5 exInfo exTarget rfl).1

/-- C10: a vehicle carrying no correlation hint at all bypasses the
provisional index: its row goes straight to the vehicles table exactly
once, unenriched (empty enrichment-only fields, construction type as
body style), and the index is untouched. -/
theorem C10_no_hint_passthrough (aid : Int) (st : PState) (v : RawVehicle)
    (h1 : v.linkingTargetId = none) (h2 : v.carId = none) :
    (processVehicle aid st v).vehicles = st.vehicles ++ [mkVehicleRow aid v]
    ∧ (processVehicle aid st v).vlookup = st.vlookup
    ∧ (mkVehicleRow aid v).fuel_type = []
    ∧ (mkVehicleRow aid v).drive_type = []
    ∧ (mkVehicleRow aid v).kba_numbers = []
    ∧ (mkVehicleRow aid v).engine_code = []
    ∧ (mkVehicleRow aid v).other_restrictions = []
    ∧ (mkVehicleRow aid v).body_style = v.constructionType := by
  have hh : hintOf v = none := by simp [hintOf, h1, h2, optIntTruthy]
  refine ⟨?_, ?_, rfl, rfl, rfl, rfl, rfl, rfl⟩ <;> simp [processVehicle, hh]

/-- Witness for C10 at a concrete hintless vehicle. -/
theorem C10_no_hint_passthrough_witness :
    (processVehicle 1 ⟨[], []⟩ exRawVehicle).vehicles
      = [] ++ [mkVehicleRow 1 exRawVehicle]
    ∧ (processVehicle 1 ⟨[], []⟩ exRawVehicle).vlookup = [] := by
  have h := C10_no_hint_passthrough 1 ⟨[], []⟩ exRawVehicle rfl rfl
  exact ⟨h.1, h.2.1⟩

/-- C4: a source record for which all three tiers fail still appears in
the appended output (it is never dropped) with its row unchanged, and a
row built by the processing step has empty enrichment-only fields and
carries its construction-type hint as the body style. -/
theorem C4_unmatched_passthrough (targets : List LinkageTarget)
    (vlookup : List (Int × List VehicleInfo)) (ltid : Int)
    (g : List VehicleInfo) (vi : VehicleInfo) (aid : Int) (v : RawVehicle)
    (hmem : (ltid, g) ∈ vlookup) (hvi : vi ∈ g)
    (hfail : matchTarget (buildIdLookup targets) (buildDescIdx targets)
      (buildSpecIdx targets) ltid vi = none) :
    vi.row ∈ enrich_vehicles_with_linkage_targets targets vlookup
    ∧ (mkVehicleRow aid v).fuel_type = []
    ∧ (mkVehicleRow aid v).drive_type = []
    ∧ (mkVehicleRow aid v).kba_numbers = []
    ∧ (mkVehicleRow aid v).engine_code = []
    ∧ (mkVehicleRow aid v).other_restrictions = []
    ∧ (mkVehicleRow aid v).body_style = v.constructionType := by
  refine ⟨?_, rfl, rfl, rfl, rfl, rfl, rfl⟩
  have hvne : vlookup.isEmpty = false := by
    cases vlookup with
    | nil => exact absurd hmem (List.not_mem_nil _)
    | cons a l => rfl
  have hall : vi.row ∈ allLookupRows vlookup := by
    simp only [allLookupRows, List.mem_flatten, List.mem_map]
    exact ⟨g.map (fun x => x.row), ⟨(ltid, g), hmem, rfl⟩, List.mem_map_of_mem _ hvi⟩
  unfold enrich_vehicles_with_linkage_targets
  simp only [hvne, Bool.false_eq_true, if_false]
  by_cases hmfr : (vlookup.any (fun p => p.2.any (fun x => !x.mfr_id.isEmpty))) = true
  · simp only [hmfr, Bool.not_true, Bool.false_eq_true, if_false]
    by_cases hid : (buildIdLookup targets).isEmpty = true
    · simp only [hid, if_true]
      exact hall
    · simp only [hid, Bool.false_eq_true, if_false]
      simp only [List.mem_flatten, List.mem_map]
      refine ⟨g.map (correlateVehicle (buildIdLookup targets) (buildDescIdx targets)
        (buildSpecIdx targets) ltid), ⟨(ltid, g), hmem, rfl⟩, ?_⟩
      have hrow : correlateVehicle (buildIdLookup targets) (buildDescIdx targets)
          (buildSpecIdx targets) ltid vi = vi.row := by
        simp [correlateVehicle, hfail]
      exact hrow ▸ List.mem_map_of_mem _ hvi
  · simp only [Bool.not_eq_true] at hmfr
    simp only [hmfr, Bool.not_false, if_true]
    exact hall

/-- Witness for C4 with an empty detail catalog, where every tier fails
for the concrete source record. -/
theorem C4_unmatched_passthrough_witness :
    exInfo.row ∈ enrich_vehicles_with_linkage_targets [] [(9, [exInfo])] :=
  (C4_unmatched_passthrough [] [(9, [exInfo])] 9 [exInfo] exInfo 1 exRawVehicle
    (by decide) (by decide) (by decide)).1

/-- C7 (counterexample): the claim says only descriptions longer than 5
characters participate in tier-2 substring matching; but the source's
guard is on the source type name's length, so a 4-character detail
description is accepted by the scan. -/
theorem C7_short_description_counterexample :
    tier2Match (buildDescIdx [shortDescTarget]) (lit "7") (lit "Panda 1.2")
      (lit "69") = some shortDescTarget
    ∧ (strTrim shortDescTarget.description).length ≤ 5 := by
  constructor
  · decide
  · decide

/-- C7 (amended): a tier-2 scan candidate is accepted only when its
description and the source's type name are substrings of one another
AND its power rating equals the source's (or it has none) — but the
5-character guard is on the source's type name, not on the detail's
description: the scan can only ever return a candidate when the source
type name is longer than 5 characters, with no length bound on the
accepted description. -/
theorem C7_tier2_source_length_guard (descIdx : List (Str × List LinkageTarget))
    (mfr_id type_name power_hp : Str) (t : LinkageTarget)
    (h : tier2Scan descIdx mfr_id type_name power_hp = some t) :
    5 < type_name.length
    ∧ (strSub type_name t.description = true
        ∨ strSub t.description type_name = true)
    ∧ (power_hp = t.horsePowerFrom ∨ t.horsePowerFrom = []) := by
  induction descIdx with
  | nil => simp [tier2Scan] at h
  | cons p rest ih =>
    obtain ⟨k, g⟩ := p
    cases g with
    | nil =>
      rw [tier2Scan] at h
      exact ih h
    | cons t0 g' =>
      rw [tier2Scan] at h
      split_ifs at h with hpre hcond hpow
      · injection h with h
        subst h
        refine ⟨hcond.2, ?_, ?_⟩
        · simpa using hcond.1
        · simpa using hpow
      · exact ih h
      · exact ih h
      · exact ih h

/-- Witness for C7's amended theorem at the concrete accepted scan
match. -/
theorem C7_tier2_source_length_guard_witness :
    5 < (lit "Panda 1.2").length
    ∧ (strSub (lit "Panda 1.2") shortDescTarget.description = true
        ∨ strSub shortDescTarget.description (lit "Panda 1.2") = true)
    ∧ (lit "69" = shortDescTarget.horsePowerFrom
        ∨ shortDescTarget.horsePowerFrom = []) :=
  C7_tier2_source_length_guard (buildDescIdx [shortDescTarget]) (lit "7")
    (lit "Panda 1.2") (lit "69") shortDescTarget (by decide)

/-- The seen-set loop and the keep-first-drop-later-duplicates recursion
compute the same list, for any starting seen set. -/
theorem dedupeGo_eq_firstOccurrences :
    ∀ (rows : List VehicleRow) (seen : List DKey),
      dedupeGo seen rows
        = firstOccurrences (rows.filter (fun r => !(seen.contains (dedupKey r)))) := by
  intro rows
  induction rows with
  | nil => intro seen; simp [dedupeGo, firstOccurrences]
  | cons r rest ih =>
    intro seen
    by_cases hc : seen.contains (dedupKey r) = true
    · rw [dedupeGo, if_pos hc, List.filter_cons]
      simp only [hc, Bool.not_true, Bool.false_eq_true, if_false]
      exact ih seen
    · have hc' : seen.contains (dedupKey r) = false := by
        simpa using hc
      rw [dedupeGo, if_neg hc, List.filter_cons]
      simp only [hc', Bool.not_false, if_true]
      rw [firstOccurrences, ih (dedupKey r :: seen), List.filter_filter]
      congr 1
      congr 1
      apply List.filter_congr
      intro x hx
      simp [List.contains_cons, Bool.not_or, Bool.and_comm]

/-- C3: vehicle deduplication is order-stable and first-occurrence-wins
over the natural key — the source loop equals the keep-first recursion —
and (the key excluding `kba_numbers` and `other_restrictions`) two rows
that agree on the natural key collapse to the first row alone, which
keeps its own `kba_numbers`. -/
theorem C3_dedupe (rows : List VehicleRow) (r1 r2 : VehicleRow) :
    export_vehicles_dedupe rows = firstOccurrences rows
    ∧ (dedupKey r1 = dedupKey r2 → export_vehicles_dedupe [r1, r2] = [r1]) := by
  constructor
  · have h := dedupeGo_eq_firstOccurrences rows []
    simpa [export_vehicles_dedupe] using h
  · intro hk
    simp [export_vehicles_dedupe, dedupeGo, hk]

/-- Witness for C3: two concrete rows identical on the natural key and
differing only in `kba_numbers` collapse to the first row. -/
theorem C3_dedupe_witness :
    export_vehicles_dedupe [exRow, exRowKba] = [exRow] :=
  (C3_dedupe [exRow, exRowKba] exRow exRowKba).2 rfl

/-- A successful find over a prefix persists over an appended tail. -/
theorem find?_append_some {α : Type} (p : α → Bool) (l₁ l₂ : List α) (a : α)
    (h : l₁.find? p = some a) : (l₁ ++ l₂).find? p = some a := by
  induction l₁ with
  | nil => simp [List.find?] at h
  | cons b l ih =>
    by_cases hb : p b = true
    · rw [List.find?_cons_of_pos _ hb] at h
      rw [List.cons_append, List.find?_cons_of_pos _ hb]
      exact h
    · rw [List.find?_cons_of_neg _ hb] at h
      rw [List.cons_append, List.find?_cons_of_neg _ hb]
      exact ih h

/-- A failed find over a prefix defers to the appended tail. -/
theorem find?_append_none {α : Type} (p : α → Bool) (l₁ l₂ : List α)
    (h : l₁.find? p = none) : (l₁ ++ l₂).find? p = l₂.find? p := by
  induction l₁ with
  | nil => simp
  | cons b l ih =>
    by_cases hb : p b = true
    · rw [List.find?_cons_of_pos _ hb] at h
      exact absurd h (by simp)
    · rw [List.find?_cons_of_neg _ hb] at h
      rw [List.cons_append, List.find?_cons_of_neg _ hb]
      exact ih h

/-- Where a member of a keyed-group index lands after an insertion:
either untouched, or the fresh singleton group of a previously absent
key, or its group extended by the inserted value. -/
theorem indexInsert_mem {β : Type} (idx : List (Str × List β)) (kk : Str) (v : β)
    (k : Str) (g : List β) (h : (k, g) ∈ indexInsert idx kk v) :
    (k, g) ∈ idx
    ∨ (k = kk ∧ (¬∃ g₀, (kk, g₀) ∈ idx) ∧ g = [v])
    ∨ (k = kk ∧ ∃ g₀, (k, g₀) ∈ idx ∧ g = g₀ ++ [v]) := by
  induction idx with
  | nil =>
    simp only [indexInsert, List.mem_singleton, Prod.mk.injEq] at h
    exact Or.inr (Or.inl ⟨h.1, by simp, h.2⟩)
  | cons p rest ih =>
    obtain ⟨k₀, g₀⟩ := p
    rw [indexInsert] at h
    by_cases hk : (k₀ == kk) = true
    · rw [if_pos hk] at h
      have hk0 : k₀ = kk := eq_of_beq hk
      rcases List.mem_cons.mp h with heq | htail
      · obtain ⟨h1, h2⟩ := Prod.mk.injEq .. ▸ heq
        refine Or.inr (Or.inr ⟨h1.trans hk0, g₀, ?_, h2⟩)
        rw [h1]
        exact List.mem_cons_self _ _
      · exact Or.inl (List.mem_cons_of_mem _ htail)
    · rw [if_neg hk] at h
      have hk0 : k₀ ≠ kk := fun hh => hk (by simp [hh])
      rcases List.mem_cons.mp h with heq | htail
      · exact Or.inl (List.mem_cons.mpr (Or.inl heq))
      · rcases ih htail with h1 | ⟨he, habs, hg⟩ | ⟨he, g₁, hm, hg⟩
        · exact Or.inl (List.mem_cons_of_mem _ h1)
        · refine Or.inr (Or.inl ⟨he, ?_, hg⟩)
          rintro ⟨g₂, hg₂⟩
          rcases List.mem_cons.mp hg₂ with h2 | h2
          · exact hk0 ((Prod.mk.injEq .. ▸ h2).1.symm)
          · exact habs ⟨g₂, h2⟩
        · exact Or.inr (Or.inr ⟨he, g₁, List.mem_cons_of_mem _ hm, hg⟩)

/-- The inserted key is present after insertion. -/
theorem indexInsert_key_mem {β : Type} (idx : List (Str × List β)) (kk : Str)
    (v : β) : ∃ g, (kk, g) ∈ indexInsert idx kk v := by
  induction idx with
  | nil => exact ⟨[v], by simp [indexInsert]⟩
  | cons p rest ih =>
    obtain ⟨k₀, g₀⟩ := p
    rw [indexInsert]
    by_cases hk : (k₀ == kk) = true
    · rw [if_pos hk]
      refine ⟨g₀ ++ [v], ?_⟩
      rw [← eq_of_beq hk]
      exact List.mem_cons_self _ _
    · rw [if_neg hk]
      obtain ⟨g, hg⟩ := ih
      exact ⟨g, List.mem_cons_of_mem _ hg⟩

/-- Existing keys keep some group across an insertion. -/
theorem indexInsert_key_preserved {β : Type} (idx : List (Str × List β))
    (kk : Str) (v : β) (k : Str) (g : List β) (h : (k, g) ∈ idx) :
    ∃ g', (k, g') ∈ indexInsert idx kk v := by
  induction idx with
  | nil => exact absurd h (List.not_mem_nil _)
  | cons p rest ih =>
    obtain ⟨k₀, g₀⟩ := p
    rw [indexInsert]
    by_cases hk : (k₀ == kk) = true
    · rw [if_pos hk]
      rcases List.mem_cons.mp h with heq | htail
      · simp only [Prod.mk.injEq] at heq
        refine ⟨g₀ ++ [v], ?_⟩
        rw [heq.1]
        exact List.mem_cons_self _ _
      · exact ⟨g, List.mem_cons_of_mem _ htail⟩
    · rw [if_neg hk]
      rcases List.mem_cons.mp h with heq | htail
      · exact ⟨g, List.mem_cons.mpr (Or.inl heq)⟩
      · obtain ⟨g', hg'⟩ := ih htail
        exact ⟨g', List.mem_cons_of_mem _ hg'⟩

/-- The head of an append is the head of a nonempty prefix. -/
theorem head?_append_of_ne_nil {α : Type} (l₁ l₂ : List α) (h : l₁ ≠ []) :
    (l₁ ++ l₂).head? = l₁.head? := by
  cases l₁ with
  | nil => exact absurd rfl h
  | cons a l => rfl

/-- An optional head is a member. -/
theorem mem_of_head?_eq_some {α : Type} (l : List α) (a : α)
    (h : l.head? = some a) : a ∈ l := by
  cases l with
  | nil => simp at h
  | cons b l =>
    have hb : b = a := by simpa using h
    rw [← hb]
    exact List.mem_cons_self _ _

/-- Soundness of the built description index: the head of every group is
the first input detail carrying that key; every index-eligible input has
its key present; groups are nonempty and homogeneous in key. -/
theorem buildDescIdx_sound (targets : List LinkageTarget) :
    (∀ k g t, (k, g) ∈ buildDescIdx targets → g.head? = some t →
      targets.find? (descPred k) = some t)
    ∧ (∀ u ∈ targets, descIndexed u = true →
      ∃ g, (descKeyOf u, g) ∈ buildDescIdx targets)
    ∧ (∀ k g, (k, g) ∈ buildDescIdx targets → g ≠ [])
    ∧ (∀ k g, (k, g) ∈ buildDescIdx targets →
        ∀ u ∈ g, descIndexed u = true ∧ descKeyOf u = k) := by
  induction targets using List.reverseRecOn with
  | nil => refine ⟨?_, ?_, ?_, ?_⟩ <;> simp [buildDescIdx]
  | append_singleton l u ih =>
    obtain ⟨ihJ, ihKC, ihNE, ihKO⟩ := ih
    have hstep : buildDescIdx (l ++ [u])
        = (if descIndexed u then indexInsert (buildDescIdx l) (descKeyOf u) u
           else buildDescIdx l) := by
      simp [buildDescIdx, List.foldl_append]
    by_cases hdu : descIndexed u = true
    · rw [hstep, if_pos hdu]
      refine ⟨?_, ?_, ?_, ?_⟩
      · intro k g t hmem hhead
        rcases indexInsert_mem _ _ _ _ _ hmem with h1 | ⟨he, habs, hg⟩ | ⟨he, g₀, hm, hg⟩
        · exact find?_append_some _ _ _ _ (ihJ k g t h1 hhead)
        · subst he
          subst hg
          have ht : t = u := by
            have := hhead
            simp at this
            exact this.symm
          rw [ht]
          have hnone : l.find? (descPred (descKeyOf u)) = none := by
            cases hfl : l.find? (descPred (descKeyOf u)) with
            | none => rfl
            | some w =>
              have hw := List.find?_some hfl
              have hwm := List.mem_of_find?_eq_some hfl
              have hwi : descIndexed w = true ∧ descKeyOf w = descKeyOf u := by
                simpa [descPred] using hw
              obtain ⟨g', hg'⟩ := ihKC w hwm hwi.1
              rw [hwi.2] at hg'
              exact absurd ⟨g', hg'⟩ habs
          rw [find?_append_none _ _ _ hnone]
          simp [List.find?, descPred, hdu]
        · subst he
          subst hg
          have hne := ihNE _ _ hm
          rw [head?_append_of_ne_nil _ _ hne] at hhead
          exact find?_append_some _ _ _ _ (ihJ _ _ _ hm hhead)
      · intro w hw hwi
        rcases List.mem_append.mp hw with h1 | h1
        · obtain ⟨g, hg⟩ := ihKC w h1 hwi
          exact indexInsert_key_preserved _ _ _ _ _ hg
        · have hwu : w = u := by simpa using h1
          subst hwu
          exact indexInsert_key_mem _ _ _
      · intro k g hmem
        rcases indexInsert_mem _ _ _ _ _ hmem with h1 | ⟨_, _, hg⟩ | ⟨_, g₀, _, hg⟩
        · exact ihNE _ _ h1
        · subst hg; simp
        · subst hg; simp
      · intro k g hmem w hwg
        rcases indexInsert_mem _ _ _ _ _ hmem with h1 | ⟨he, _, hg⟩ | ⟨he, g₀, hm, hg⟩
        · exact ihKO _ _ h1 w hwg
        · subst hg
          have hwu : w = u := by simpa using hwg
          subst hwu
          exact ⟨hdu, he.symm⟩
        · subst hg
          rcases List.mem_append.mp hwg with h2 | h2
          · exact ihKO _ _ hm w h2
          · have hwu : w = u := by simpa using h2
            subst hwu
            exact ⟨hdu, he.symm⟩
    · rw [hstep, if_neg hdu]
      refine ⟨?_, ?_, ?_, ?_⟩
      · intro k g t hmem hhead
        exact find?_append_some _ _ _ _ (ihJ k g t hmem hhead)
      · intro w hw hwi
        rcases List.mem_append.mp hw with h1 | h1
        · exact ihKC w h1 hwi
        · have hwu : w = u := by simpa using h1
          subst hwu
          exact absurd hwi hdu
      · exact ihNE
      · exact ihKO

/-- A group found by key lookup is a member of the index. -/
theorem idxFind_mem {β : Type} (idx : List (Str × List β)) (k : Str)
    (g : List β) (h : idxFind idx k = some g) : ∃ k', (k', g) ∈ idx := by
  unfold idxFind at h
  cases hf : idx.find? (fun p => p.1 == k) with
  | none => rw [hf] at h; simp at h
  | some p =>
    rw [hf] at h
    have hpg : p.2 = g := by simpa using h
    have hm := List.mem_of_find?_eq_some hf
    refine ⟨p.1, ?_⟩
    rw [← hpg]
    simpa using hm

/-- A tier-2 scan result is the head of some group of the index. -/
theorem tier2Scan_head (idx : List (Str × List LinkageTarget))
    (m tn php : Str) (t : LinkageTarget)
    (h : tier2Scan idx m tn php = some t) :
    ∃ k g, (k, g) ∈ idx ∧ g.head? = some t := by
  induction idx with
  | nil => simp [tier2Scan] at h
  | cons p rest ih =>
    obtain ⟨k, g⟩ := p
    cases g with
    | nil =>
      rw [tier2Scan] at h
      obtain ⟨k', g', hm, hh⟩ := ih h
      exact ⟨k', g', List.mem_cons_of_mem _ hm, hh⟩
    | cons t0 g' =>
      rw [tier2Scan] at h
      split_ifs at h with h1 h2 h3
      · injection h with h
        subst h
        exact ⟨k, t0 :: g', List.mem_cons_self _ _, rfl⟩
      · obtain ⟨k', g'', hm, hh⟩ := ih h
        exact ⟨k', g'', List.mem_cons_of_mem _ hm, hh⟩
      · obtain ⟨k', g'', hm, hh⟩ := ih h
        exact ⟨k', g'', List.mem_cons_of_mem _ hm, hh⟩
      · obtain ⟨k', g'', hm, hh⟩ := ih h
        exact ⟨k', g'', List.mem_cons_of_mem _ hm, hh⟩

/-- C9: a detail returned by the tier-2 stage (exact lookup or scan) is
always the first detail, in input order, indexed under its
(manufacturer id, description) key — a detail other than the first
inserted under a key can never be selected by tier 2, even when the
first fails the power guard and a later one would pass it. -/
theorem C9_first_inserted_only (targets : List LinkageTarget)
    (mfr tn php : Str) (t : LinkageTarget)
    (h : tier2Match (buildDescIdx targets) mfr tn php = some t) :
    targets.find? (descPred (descKeyOf t)) = some t := by
  obtain ⟨ihJ, ihKC, ihNE, ihKO⟩ := buildDescIdx_sound targets
  have hex : ∃ k g, (k, g) ∈ buildDescIdx targets ∧ g.head? = some t := by
    unfold tier2Match at h
    by_cases hcc : (!mfr.isEmpty && !tn.isEmpty) = true
    · rw [if_pos hcc] at h
      cases hidx : idxFind (buildDescIdx targets) (mfr ++ '_' :: tn) with
      | none =>
        rw [hidx] at h
        exact tier2Scan_head _ _ _ _ _ h
      | some gg =>
        cases gg with
        | nil =>
          rw [hidx] at h
          exact tier2Scan_head _ _ _ _ _ h
        | cons t0 g' =>
          rw [hidx] at h
          have ht : t0 = t := by simpa using h
          obtain ⟨k', hk'⟩ := idxFind_mem _ _ _ hidx
          exact ⟨k', t0 :: g', hk', by simp [ht]⟩
    · rw [if_neg hcc] at h
      exact absurd h (by simp)
  obtain ⟨k, g, hm, hh⟩ := hex
  have hko := ihKO k g hm t (mem_of_head?_eq_some _ _ hh)
  rw [hko.2]
  exact ihJ k g t hm hh

/-- Witness for C9 at a one-target catalog matched through the exact
tier-2 key. -/
theorem C9_first_inserted_only_witness :
    [exTarget].find? (descPred (descKeyOf exTarget)) = some exTarget :=
  C9_first_inserted_only [exTarget] (lit "7") (lit "Panda 1.2") (lit "69")
    exTarget (by decide)

end Tecdoc
